import Mathlib

/-!
Verification development for the SecureSphere login/registration backend.

The JavaScript source under verification consists of:
* `backend/models/User.js` — the mongoose user schema (field validators,
  pre-save password hashing hook, `comparePassword`, `generateAuthToken`,
  `getPublicProfile`);
* `backend/controllers/authController.js` — the `register`, `login`,
  `getProfile`, `logout` and `verifyToken` handlers;
* the auth routes file — per-field request validation chains
  (`registerValidation`, `loginValidation`) and the route table.

External library calls (bcryptjs, jsonwebtoken, validator.js `isEmail` /
`normalizeEmail`, JavaScript string primitives) are modelled by executable
Lean functions that realise their documented contracts.  The auth
middleware (`protect`) is not present in the source tree — only its
callers are — so it is modelled from the specification where noted.
-/

namespace SecureSphere

/-- Model of JavaScript character whitespace as used by `String.prototype.trim`:
space, tab, CR, LF, form feed and vertical tab. -/
def jsIsSpace (c : Char) : Bool :=
  c == ' ' || c == '\t' || c == '\r' || c == '\n' || c == '\x0b' || c == '\x0c'

/-- Drop leading and trailing whitespace from a character list. -/
def trimChars (l : List Char) : List Char :=
  ((l.dropWhile jsIsSpace).reverse.dropWhile jsIsSpace).reverse

/-- Model of JavaScript `String.prototype.trim`: drop leading and trailing
whitespace. -/
def jsTrim (s : String) : String :=
  ⟨trimChars s.data⟩

/-- Lower-case every character of a list. -/
def lowerChars (l : List Char) : List Char :=
  l.map Char.toLower

/-- Model of JavaScript `String.prototype.toLowerCase` restricted to the
character set the backend handles (ASCII): lower-case every character. -/
def jsToLower (s : String) : String :=
  ⟨lowerChars s.data⟩

/-- Word character of the JavaScript regex class `\w`: ASCII letter, digit
or underscore. -/
def isWordChar (c : Char) : Bool :=
  ('a' ≤ c && c ≤ 'z') || ('A' ≤ c && c ≤ 'Z') || ('0' ≤ c && c ≤ '9') || c == '_'

/-- Regular expressions over characters, used to transliterate the email
regex of the user schema
(`/^\w+([\.-]?\w+)*@\w+([\.-]?\w+)*(\.\w{2,3})+$/`). -/
inductive RE : Type where
  | emp : RE
  | eps : RE
  | tok : (Char → Bool) → RE
  | alt : RE → RE → RE
  | cat : RE → RE → RE
  | star : RE → RE

namespace RE

/-- Whether the regex accepts the empty string. -/
def nullable : RE → Bool
  | emp => false
  | eps => true
  | tok _ => false
  | alt r s => r.nullable || s.nullable
  | cat r s => r.nullable && s.nullable
  | star _ => true

/-- Size-reducing alternation constructor. -/
def altS : RE → RE → RE
  | emp, s => s
  | r, emp => r
  | r, s => alt r s

/-- Size-reducing concatenation constructor. -/
def catS : RE → RE → RE
  | emp, _ => emp
  | _, emp => emp
  | eps, s => s
  | r, eps => r
  | r, s => cat r s

/-- Brzozowski derivative of a regex with respect to one character. -/
def deriv (c : Char) : RE → RE
  | emp => emp
  | eps => emp
  | tok p => if p c then eps else emp
  | alt r s => altS (r.deriv c) (s.deriv c)
  | cat r s =>
      if r.nullable then altS (catS (r.deriv c) s) (s.deriv c)
      else catS (r.deriv c) s
  | star r => catS (r.deriv c) (star r)

/-- Run the regex over a character list by iterated derivatives. -/
def matchList : RE → List Char → Bool
  | r, [] => r.nullable
  | r, c :: cs => (r.deriv c).matchList cs

/-- Whole-string match, the semantics of a `^...$`-anchored JS regex test. -/
def matchStr (r : RE) (s : String) : Bool :=
  r.matchList s.data

end RE

/-- The regex fragment `\w`. -/
def reW : RE := .tok isWordChar

/-- The regex fragment `\w+`. -/
def reWplus : RE := .cat reW (.star reW)

/-- The regex fragment `([\.-]?\w+)*`. -/
def reSepBlocks : RE :=
  .star (.cat (.alt .eps (.tok (fun c => c == '.' || c == '-'))) reWplus)

/-- The regex fragment `(\.\w{2,3})+`. -/
def reTldBlocks : RE :=
  let blk : RE := .cat (.tok (fun c => c == '.')) (.cat reW (.cat reW (.alt .eps reW)))
  .cat blk (.star blk)

/-- Transliteration of the user schema's email validator
`/^\w+([\.-]?\w+)*@\w+([\.-]?\w+)*(\.\w{2,3})+$/` from `User.js`. -/
def schemaEmailRE : RE :=
  .cat reWplus (.cat reSepBlocks
    (.cat (.tok (fun c => c == '@'))
      (.cat reWplus (.cat reSepBlocks reTldBlocks))))

/-- Whether a string passes the schema's email `match` validator. -/
def schemaEmailOk (s : String) : Bool :=
  schemaEmailRE.matchStr s

/-- Split a character list at every separator (kernel-reducible analogue of
`String.split`). -/
def splitChars (p : Char → Bool) : List Char → List (List Char)
  | [] => [[]]
  | c :: cs =>
      let rest := splitChars p cs
      if p c then [] :: rest
      else
        match rest with
        | [] => [[c]]
        | h :: t => (c :: h) :: t

/-- Model of validator.js `isEmail` (used by the route validation chains
via express-validator): one `@`, non-empty local part, domain made of at
least two non-empty dot-separated labels of letters, digits or hyphens,
with an alphabetic top-level label of length at least two.  Unlike the
schema regex it accepts top-level domains longer than three characters. -/
def isEmailModel (s : String) : Bool :=
  match splitChars (· == '@') s.data with
  | [loc, dom] =>
      let labels := splitChars (· == '.') dom
      !loc.isEmpty &&
      loc.all (fun c => isWordChar c || c == '.' || c == '-' || c == '+') &&
      labels.length ≥ 2 &&
      labels.all (fun l => !l.isEmpty && l.all (fun c => isWordChar c || c == '-')) &&
      (match labels.getLast? with
       | some tld => tld.length ≥ 2 && tld.all Char.isAlpha
       | none => false)
  | _ => false

/-- Model of validator.js `normalizeEmail` with default options: the whole
address is lower-cased (`all_lowercase: true`). -/
def normalizeEmail (s : String) : String :=
  jsToLower s

/-- Contract model of `bcrypt.hash(plain, salt)`: a salted one-way hash,
rendered as a tagged string embedding the salt, so that distinct salts give
distinct hashes and no hash equals its plaintext. -/
def bcryptHash (salt : Nat) (plain : String) : String :=
  "$2b$10$" ++ toString salt ++ "$" ++ plain

/-- Kernel-reducible string prefix test. -/
def strHasPrefix (s pre : String) : Bool :=
  pre.data.isPrefixOf s.data

/-- Kernel-reducible string suffix test. -/
def strHasSuffix (s suf : String) : Bool :=
  suf.data.reverse.isPrefixOf s.data.reverse

/-- Contract model of `bcrypt.compare(plain, hashed)`: succeeds exactly on
strings produced by `bcryptHash` from the same plaintext. -/
def bcryptCompare (plain hashed : String) : Bool :=
  strHasPrefix hashed "$2b$10$" && strHasSuffix hashed ("$" ++ plain)

/-- JSON-like values appearing in response bodies. -/
inductive JVal : Type where
  | str : String → JVal
  | num : Nat → JVal
deriving DecidableEq, Repr

/-- A stored user document, after the schema setters have been applied.
The `password` field holds the bcrypt hash once the document is saved. -/
structure UserDoc where
  id : Nat
  name : String
  email : String
  password : String
  createdAt : Nat
  lastLogin : Nat
deriving DecidableEq, Repr

/-- The credential store: the user collection plus the id generator. -/
structure DB where
  users : List UserDoc
  nextId : Nat
deriving DecidableEq, Repr

/-- Model of `User.findOne({email: e})`: first stored user with that exact
email. -/
def findOneByEmail (db : DB) (e : String) : Option UserDoc :=
  db.users.find? (fun u => u.email == e)

/-- Model of `User.findById(i)`. -/
def findById (db : DB) (i : Nat) : Option UserDoc :=
  db.users.find? (fun u => u.id == i)

/-- Transliteration of `getPublicProfile` from `User.js`: the outward
representation of a user, as a JSON object (key/value list). -/
def getPublicProfile (u : UserDoc) : List (String × JVal) :=
  [("id", .num u.id), ("name", .str u.name), ("email", .str u.email),
   ("registeredAt", .num u.createdAt), ("lastLogin", .num u.lastLogin)]

/-- The user schema's field validators from `User.js`, run on the values
after the setters (trim on name, trim+lowercase on email): name required
and 2–50 characters, email required and matching the schema regex,
password required and at least 6 characters. -/
def userSchemaValid (name email password : String) : Bool :=
  !name.isEmpty && 2 ≤ name.length && name.length ≤ 50 &&
  !email.isEmpty && schemaEmailOk email &&
  !password.isEmpty && 6 ≤ password.length

/-- Model of `User.create(...)`: apply the schema setters, run the schema
validators (failure surfaces as a thrown `ValidationError`, here `.error`),
run the pre-save hook — the password of a new document is always modified,
so it is bcrypt-hashed — and insert the document with a fresh id.
`createdAt` and `lastLogin` both default to `Date.now`. -/
def userCreate (db : DB) (now salt : Nat) (name email password : String) :
    Except String (UserDoc × DB) :=
  let name := jsTrim name
  let email := jsToLower (jsTrim email)
  if userSchemaValid name email password then
    let doc : UserDoc :=
      { id := db.nextId, name := name, email := email,
        password := bcryptHash salt password, createdAt := now, lastLogin := now }
    .ok (doc, { users := db.users ++ [doc], nextId := db.nextId + 1 })
  else
    .error "User validation failed"

/-- Model of `document.save()` on an existing document, with the pre-save
hook of `User.js`: the password is re-hashed only when `passwordModified`
is set (`this.isModified('password')`); the stored copy of the document is
replaced. -/
def saveDoc (db : DB) (passwordModified : Bool) (salt : Nat) (u : UserDoc) : DB :=
  let u := if passwordModified then { u with password := bcryptHash salt u.password } else u
  { db with users := db.users.map (fun v => if v.id == u.id then u else v) }

/-- JWT claims payload signed by `generateAuthToken`: subject id, email,
issued-at and expiry. -/
structure TokenPayload where
  id : Nat
  email : String
  iat : Nat
  exp : Nat
deriving DecidableEq, Repr

/-- Contract model of the signature jsonwebtoken computes over the payload
with the process-wide secret. -/
def jwtSignature (secret : String) (p : TokenPayload) : String :=
  "hmac:" ++ secret ++ ":" ++ toString p.id ++ ":" ++ p.email ++ ":" ++
    toString p.iat ++ ":" ++ toString p.exp

/-- A signed token: payload plus signature. -/
structure Token where
  payload : TokenPayload
  sig : String
deriving DecidableEq, Repr

/-- Transliteration of `generateAuthToken` from `User.js`:
`jwt.sign({id, email}, JWT_SECRET, {expiresIn: JWT_EXPIRE})`. -/
def generateAuthToken (secret : String) (now ttl : Nat) (u : UserDoc) : Token :=
  let p : TokenPayload := { id := u.id, email := u.email, iat := now, exp := now + ttl }
  { payload := p, sig := jwtSignature secret p }

/-- The `registerValidation` chain of the auth routes file: name is trimmed
then checked non-empty and 2–50 characters; email is trimmed then checked
non-empty and `isEmail`; password checked non-empty and at least 6
characters; confirmPassword checked non-empty.  Returns the list of
validation error messages. -/
def registerValidationErrs (name email password confirmPassword : String) : List String :=
  (if (jsTrim name).isEmpty then ["Name is required"] else []) ++
  (if (jsTrim name).length < 2 then ["Name must be at least 2 characters"] else []) ++
  (if (jsTrim name).length > 50 then ["Name cannot exceed 50 characters"] else []) ++
  (if (jsTrim email).isEmpty then ["Email is required"] else []) ++
  (if !isEmailModel (jsTrim email) then ["Please provide a valid email"] else []) ++
  (if password.isEmpty then ["Password is required"] else []) ++
  (if password.length < 6 then ["Password must be at least 6 characters"] else []) ++
  (if confirmPassword.isEmpty then ["Please confirm your password"] else [])

/-- The `loginValidation` chain of the auth routes file. -/
def loginValidationErrs (email password : String) : List String :=
  (if (jsTrim email).isEmpty then ["Email is required"] else []) ++
  (if !isEmailModel (jsTrim email) then ["Please provide a valid email"] else []) ++
  (if password.isEmpty then ["Password is required"] else [])

/-- A JSON response of the auth controller: HTTP status, `success` flag,
optional `message`, validation `errors`, optional `token` and `user`
fields. -/
structure ApiResponse where
  status : Nat
  success : Bool
  message : Option String := none
  errors : List String := []
  token : Option Token := none
  user : Option (List (String × JVal)) := none
deriving DecidableEq, Repr

/-- Transliteration of `exports.register` from `authController.js`,
composed with the route's validation chain (whose sanitizers leave the
body's name trimmed and its email trimmed and normalized): validation
errors → 400; password mismatch → 400; existing user under the lowercased
email → 400 conflict; otherwise `User.create` (a schema validation failure
there is caught and surfaced as 500), then a token and the public
profile are returned with 201. -/
def register (secret : String) (ttl : Nat) (db : DB) (now salt : Nat)
    (name email password confirmPassword : String) : ApiResponse × DB :=
  let errs := registerValidationErrs name email password confirmPassword
  let name := jsTrim name
  let email := normalizeEmail (jsTrim email)
  if !errs.isEmpty then
    ({ status := 400, success := false, message := some "Validation failed",
       errors := errs }, db)
  else if password != confirmPassword then
    ({ status := 400, success := false, message := some "Passwords do not match" }, db)
  else
    match findOneByEmail db (jsToLower email) with
    | some _ =>
        ({ status := 400, success := false,
           message := some "Email already registered. Please use a different email or login." }, db)
    | none =>
        match userCreate db now salt name (jsToLower email) password with
        | .error _ =>
            ({ status := 500, success := false,
               message := some "Server error during registration" }, db)
        | .ok (doc, db1) =>
            ({ status := 201, success := true, message := some "Registration successful",
               token := some (generateAuthToken secret now ttl doc),
               user := some (getPublicProfile doc) }, db1)

/-- Transliteration of `exports.login` from `authController.js`, composed
with the route's validation chain: validation errors → 400; no user under
the lowercased email → 401; failed bcrypt comparison → 401 with the same
message; otherwise `lastLogin` is set to now, the document saved (password
unmodified, so the pre-save hook does not re-hash), and a token plus the
public profile returned with 200. -/
def login (secret : String) (ttl : Nat) (db : DB) (now : Nat)
    (email password : String) : ApiResponse × DB :=
  let errs := loginValidationErrs email password
  let email := normalizeEmail (jsTrim email)
  if !errs.isEmpty then
    ({ status := 400, success := false, message := some "Validation failed",
       errors := errs }, db)
  else
    match findOneByEmail db (jsToLower email) with
    | none =>
        ({ status := 401, success := false, message := some "Invalid email or password" }, db)
    | some u =>
        if !bcryptCompare password u.password then
          ({ status := 401, success := false, message := some "Invalid email or password" }, db)
        else
          let u1 := { u with lastLogin := now }
          let db1 := saveDoc db false 0 u1
          ({ status := 200, success := true, message := some "Login successful",
             token := some (generateAuthToken secret now ttl u1),
             user := some (getPublicProfile u1) }, db1)

/-- Transliteration of `exports.getProfile` from `authController.js`: look
the resolved identity up again; 404 if gone, else 200 with the public
profile. -/
def getProfile (db : DB) (userId : Nat) : ApiResponse :=
  match findById db userId with
  | none => { status := 404, success := false, message := some "User not found" }
  | some u => { status := 200, success := true, user := some (getPublicProfile u) }

/-- A `res.cookie('token', ...)` call: value, absolute expiry (ms) and the
httpOnly flag. -/
structure CookieSet where
  value : String
  expires : Nat
  httpOnly : Bool
deriving DecidableEq, Repr

/-- The response of `exports.logout`: status, success flag, message and the
overwritten cookie. -/
structure LogoutResult where
  status : Nat
  success : Bool
  message : Option String
  cookie : CookieSet
deriving DecidableEq, Repr

/-- Transliteration of `exports.logout` from `authController.js`: overwrite
the `token` cookie with the value `'none'` expiring 10 seconds from now,
return 200 `{success:true}`; the store is not touched. -/
def logout (db : DB) (now : Nat) : LogoutResult × DB :=
  ({ status := 200, success := true, message := some "Logout successful",
     cookie := { value := "none", expires := now + 10 * 1000, httpOnly := true } }, db)

/-- Modelled from the spec: an inbound bearer credential as the verifier
sees it — either a string that does not parse as a token (`Malformed`), or
a parsed payload-plus-signature.  The middleware file itself
(`backend/middleware/authMiddleware.js`) is not part of the source tree;
only its callers are, so tokens and the middleware are modelled from
spec §4.2–§4.3. -/
inductive RawToken : Type where
  | malformed : String → RawToken
  | parsed : Token → RawToken
deriving DecidableEq, Repr

/-- Outcome of token verification, spec §4.2:
claims or FailureReason ∈ \x7bMalformed, SignatureInvalid, Expired\x7d. -/
inductive VerifyOutcome : Type where
  | ok : TokenPayload → VerifyOutcome
  | malformedFail : VerifyOutcome
  | sigFail : VerifyOutcome
  | expiredFail : VerifyOutcome
deriving DecidableEq, Repr

/-- Modelled from the spec: `verify(token, secret)` of §4.2 for the
middleware, which is absent from src/.  A token that does not parse is
Malformed; per §8 a token past its expiry is rejected regardless of
signature validity, so expiry is checked before the signature; otherwise a
wrong signature is SignatureInvalid. -/
def jwtVerify (secret : String) (now : Nat) : RawToken → VerifyOutcome
  | .malformed _ => .malformedFail
  | .parsed t =>
      if t.payload.exp ≤ now then .expiredFail
      else if t.sig ≠ jwtSignature secret t.payload then .sigFail
      else .ok t.payload

/-- An `Authorization` header: either a well-formed `Bearer <token>` value
or something else. -/
inductive HeaderVal : Type where
  | bearer : RawToken → HeaderVal
  | other : String → HeaderVal
deriving DecidableEq, Repr

/-- The token-carrying parts of an inbound request: the `token` cookie and
the `Authorization` header. -/
structure Request : Type where
  cookieToken : Option RawToken
  authHeader : Option HeaderVal
deriving DecidableEq, Repr

/-- Modelled from the spec: token extraction, §4.3 step 1 — check the
cookie store first; only if absent, an `Authorization: Bearer` header. -/
def extractToken (req : Request) : Option RawToken :=
  match req.cookieToken with
  | some t => some t
  | none =>
      match req.authHeader with
      | some (.bearer t) => some t
      | _ => none

/-- The identity the middleware attaches to the request context. -/
structure Identity : Type where
  id : Nat
  name : String
  email : String
deriving DecidableEq, Repr

/-- Modelled from the spec: the `protect` middleware, §4.3 — extract, else
401 "Not authorized… please login."; verify, Malformed/SignatureInvalid →
401 "Invalid token.", Expired → 401 "Token expired."; resolve the subject
id, absent → 401 "User not found.", else attach `\x7bid, name, email\x7d`. -/
def protect (secret : String) (now : Nat) (db : DB) (req : Request) :
    Except (Nat × String) Identity :=
  match extractToken req with
  | none => .error (401, "Not authorized… please login.")
  | some raw =>
      match jwtVerify secret now raw with
      | .malformedFail => .error (401, "Invalid token.")
      | .sigFail => .error (401, "Invalid token.")
      | .expiredFail => .error (401, "Token expired.")
      | .ok p =>
          match findById db p.id with
          | none => .error (401, "User not found.")
          | some u => .ok { id := u.id, name := u.name, email := u.email }

/-- Decidable form of the store invariant "every stored email is already
lowercased and trimmed" (emails are stored canonically). -/
def storedEmailsCanonical (db : DB) : Bool :=
  db.users.all (fun u => u.email == jsToLower (jsTrim u.email))

/-- Pairwise distinctness of the emails of a user list. -/
def emailsDisjoint : List UserDoc → Bool
  | [] => true
  | u :: rest => rest.all (fun v => u.email != v.email) && emailsDisjoint rest

/-- Pairwise distinctness of the ids of a user list. -/
def idsDisjoint : List UserDoc → Bool
  | [] => true
  | u :: rest => rest.all (fun v => u.id != v.id) && idsDisjoint rest

/-- Decidable form of the store invariant "ids are pairwise distinct". -/
def storedIdsUnique (db : DB) : Bool :=
  idsDisjoint db.users

/-- Decidable form of the store invariant "emails are pairwise distinct".
-/
def storedEmailsUnique (db : DB) : Bool :=
  emailsDisjoint db.users

/-- The empty credential store. -/
def emptyDB : DB := { users := [], nextId := 1 }

/-- A one-user fixture store: Alice, registered at time 100 with password
`secret1` hashed under salt 7. -/
def aliceUser : UserDoc :=
  { id := 1, name := "Alice Smith", email := "alice@example.com",
    password := bcryptHash 7 "secret1", createdAt := 100, lastLogin := 100 }

/-- The fixture store holding exactly Alice. -/
def aliceDB : DB := { users := [aliceUser], nextId := 2 }

/-!  Helper lemmas about the character-level models. -/

theorem toNat_ofNat_valid (n : Nat) (h : n.isValidChar) : (Char.ofNat n).toNat = n := by
  simp only [Char.ofNat, dif_pos h, Char.ofNatAux, Char.toNat, UInt32.toNat, BitVec.toNat_ofNatLt]

theorem toLower_toLower (c : Char) : c.toLower.toLower = c.toLower := by
  by_cases h : c.toNat ≥ 65 ∧ c.toNat ≤ 90
  · have hv : (c.toNat + 32).isValidChar := Or.inl (by omega)
    have ht : (Char.ofNat (c.toNat + 32)).toNat = c.toNat + 32 := toNat_ofNat_valid _ hv
    have h1 : c.toLower = Char.ofNat (c.toNat + 32) := by
      unfold Char.toLower
      rw [if_pos h]
    rw [h1]
    unfold Char.toLower
    rw [ht, if_neg (by omega)]
  · have h1 : c.toLower = c := by
      unfold Char.toLower
      rw [if_neg h]
    rw [h1]
    exact h1

theorem char_beq_eq_toNat_beq (c d : Char) : (c == d) = (c.toNat == d.toNat) := by
  rw [Bool.eq_iff_iff]
  simp only [beq_iff_eq]
  constructor
  · intro h; rw [h]
  · intro h
    exact Char.ext (UInt32.toNat.inj h)

theorem jsIsSpace_eq_toNat (c : Char) : jsIsSpace c =
    (c.toNat == 32 || c.toNat == 9 || c.toNat == 13 || c.toNat == 10 ||
     c.toNat == 11 || c.toNat == 12) := by
  unfold jsIsSpace
  rw [char_beq_eq_toNat_beq, char_beq_eq_toNat_beq, char_beq_eq_toNat_beq,
      char_beq_eq_toNat_beq, char_beq_eq_toNat_beq, char_beq_eq_toNat_beq]
  rfl

theorem jsIsSpace_toLower (c : Char) : jsIsSpace c.toLower = jsIsSpace c := by
  by_cases h : c.toNat ≥ 65 ∧ c.toNat ≤ 90
  · have hv : (c.toNat + 32).isValidChar := Or.inl (by omega)
    have ht : (Char.ofNat (c.toNat + 32)).toNat = c.toNat + 32 := toNat_ofNat_valid _ hv
    have h1 : c.toLower = Char.ofNat (c.toNat + 32) := by
      unfold Char.toLower
      rw [if_pos h]
    rw [h1, jsIsSpace_eq_toNat, jsIsSpace_eq_toNat, ht]
    have hl : ((c.toNat + 32 == 32 || c.toNat + 32 == 9 || c.toNat + 32 == 13 ||
        c.toNat + 32 == 10 || c.toNat + 32 == 11 || c.toNat + 32 == 12) : Bool) = false := by
      simp only [Bool.or_eq_false_iff, beq_eq_false_iff_ne, ne_eq]
      omega
    have hr : ((c.toNat == 32 || c.toNat == 9 || c.toNat == 13 ||
        c.toNat == 10 || c.toNat == 11 || c.toNat == 12) : Bool) = false := by
      simp only [Bool.or_eq_false_iff, beq_eq_false_iff_ne, ne_eq]
      omega
    rw [hl, hr]
  · have h1 : c.toLower = c := by
      unfold Char.toLower
      rw [if_neg h]
    rw [h1]

theorem dropWhile_dropWhile (p : Char → Bool) (l : List Char) :
    (l.dropWhile p).dropWhile p = l.dropWhile p := by
  induction l with
  | nil => rfl
  | cons a l ih =>
      by_cases h : p a
      · rw [List.dropWhile_cons_of_pos h]
        exact ih
      · rw [List.dropWhile_cons_of_neg h, List.dropWhile_cons_of_neg h]

theorem dropWhile_append_singleton {p : Char → Bool} {a : Char} (h : p a = false)
    (x : List Char) : ∃ y, (x ++ [a]).dropWhile p = y ++ [a] := by
  induction x with
  | nil =>
      refine ⟨[], ?_⟩
      simp [List.dropWhile_cons, h]
  | cons b x ih =>
      by_cases hb : p b
      · simpa [List.dropWhile_cons_of_pos hb] using ih
      · exact ⟨b :: x, by rw [List.cons_append, List.dropWhile_cons_of_neg hb]⟩

theorem dropWhile_head_false {p : Char → Bool} {l : List Char} {c : Char} {cs : List Char}
    (h : l.dropWhile p = c :: cs) : p c = false := by
  have hh := List.head?_dropWhile_not p l
  rw [h] at hh
  exact hh

theorem trimChars_idem (l : List Char) : trimChars (trimChars l) = trimChars l := by
  unfold trimChars
  cases hA : l.dropWhile jsIsSpace with
  | nil => simp [hA]
  | cons c0 A1 =>
      have hc0 : jsIsSpace c0 = false := dropWhile_head_false hA
      obtain ⟨y, hy⟩ := dropWhile_append_singleton hc0 A1.reverse
      have hB : (c0 :: A1).reverse.dropWhile jsIsSpace = y ++ [c0] := by
        rw [List.reverse_cons]
        exact hy
      rw [hB]
      rw [List.reverse_append, List.reverse_singleton, List.singleton_append]
      rw [List.dropWhile_cons_of_neg (by simp [hc0])]
      rw [List.reverse_cons, List.reverse_reverse]
      rw [← hB, dropWhile_dropWhile, hB]
      rw [List.reverse_append, List.reverse_singleton, List.singleton_append]

theorem lowerChars_idem (l : List Char) : lowerChars (lowerChars l) = lowerChars l := by
  unfold lowerChars
  rw [List.map_map]
  exact List.map_congr_left fun c _ => toLower_toLower c

theorem trimChars_lowerChars (l : List Char) :
    trimChars (lowerChars l) = lowerChars (trimChars l) := by
  unfold trimChars lowerChars
  have hp : (jsIsSpace ∘ Char.toLower) = jsIsSpace := funext jsIsSpace_toLower
  rw [List.dropWhile_map, hp, ← List.map_reverse, List.dropWhile_map, hp, ← List.map_reverse]

theorem jsTrim_idem (s : String) : jsTrim (jsTrim s) = jsTrim s :=
  congrArg String.mk (trimChars_idem s.data)

theorem jsToLower_idem (s : String) : jsToLower (jsToLower s) = jsToLower s :=
  congrArg String.mk (lowerChars_idem s.data)

theorem jsTrim_jsToLower (s : String) : jsTrim (jsToLower s) = jsToLower (jsTrim s) :=
  congrArg String.mk (trimChars_lowerChars s.data)

theorem canonEmail_stable (s : String) :
    jsToLower (jsTrim (jsToLower (jsToLower (jsTrim s)))) = jsToLower (jsToLower (jsTrim s)) := by
  rw [jsToLower_idem, jsTrim_jsToLower, jsTrim_idem, jsToLower_idem]

/-!  Branch equations for `register` and `login`. -/

theorem register_eq_validation {n e p c : String} (secret : String) (ttl : Nat) (db : DB)
    (now salt : Nat) (hv : (registerValidationErrs n e p c).isEmpty = false) :
    register secret ttl db now salt n e p c =
      ({ status := 400, success := false, message := some "Validation failed",
         errors := registerValidationErrs n e p c }, db) := by
  unfold register
  simp [hv]

theorem register_eq_mismatch {n e p c : String} (secret : String) (ttl : Nat) (db : DB)
    (now salt : Nat) (hv : (registerValidationErrs n e p c).isEmpty = true)
    (hp : p ≠ c) :
    register secret ttl db now salt n e p c =
      ({ status := 400, success := false, message := some "Passwords do not match" }, db) := by
  unfold register
  simp [hv, bne_iff_ne, hp]

theorem register_eq_conflict {n e p c : String} {u : UserDoc} (secret : String) (ttl : Nat)
    (db : DB) (now salt : Nat) (hv : (registerValidationErrs n e p c).isEmpty = true)
    (hp : p = c)
    (hf : findOneByEmail db (jsToLower (normalizeEmail (jsTrim e))) = some u) :
    register secret ttl db now salt n e p c =
      ({ status := 400, success := false,
         message := some "Email already registered. Please use a different email or login." }, db) := by
  subst hp
  unfold register
  simp [hv, hf]

theorem register_eq_create_error {n e p c msg : String} (secret : String) (ttl : Nat)
    (db : DB) (now salt : Nat) (hv : (registerValidationErrs n e p c).isEmpty = true)
    (hp : p = c)
    (hf : findOneByEmail db (jsToLower (normalizeEmail (jsTrim e))) = none)
    (hc : userCreate db now salt (jsTrim n) (jsToLower (normalizeEmail (jsTrim e))) p
      = .error msg) :
    register secret ttl db now salt n e p c =
      ({ status := 500, success := false,
         message := some "Server error during registration" }, db) := by
  subst hp
  unfold register
  simp [hv, hf, hc]

theorem register_eq_created {n e p c : String} {doc : UserDoc} {db1 : DB} (secret : String)
    (ttl : Nat) (db : DB) (now salt : Nat)
    (hv : (registerValidationErrs n e p c).isEmpty = true) (hp : p = c)
    (hf : findOneByEmail db (jsToLower (normalizeEmail (jsTrim e))) = none)
    (hc : userCreate db now salt (jsTrim n) (jsToLower (normalizeEmail (jsTrim e))) p
      = .ok (doc, db1)) :
    register secret ttl db now salt n e p c =
      ({ status := 201, success := true, message := some "Registration successful",
         token := some (generateAuthToken secret now ttl doc),
         user := some (getPublicProfile doc) }, db1) := by
  subst hp
  unfold register
  simp [hv, hf, hc]

theorem login_eq_validation {e p : String} (secret : String) (ttl : Nat) (db : DB)
    (now : Nat) (hv : (loginValidationErrs e p).isEmpty = false) :
    login secret ttl db now e p =
      ({ status := 400, success := false, message := some "Validation failed",
         errors := loginValidationErrs e p }, db) := by
  unfold login
  simp [hv]

theorem login_eq_no_user {e p : String} (secret : String) (ttl : Nat) (db : DB) (now : Nat)
    (hv : (loginValidationErrs e p).isEmpty = true)
    (hf : findOneByEmail db (jsToLower (normalizeEmail (jsTrim e))) = none) :
    login secret ttl db now e p =
      ({ status := 401, success := false, message := some "Invalid email or password" }, db) := by
  unfold login
  simp [hv, hf]

theorem login_eq_bad_password {e p : String} {u : UserDoc} (secret : String) (ttl : Nat)
    (db : DB) (now : Nat) (hv : (loginValidationErrs e p).isEmpty = true)
    (hf : findOneByEmail db (jsToLower (normalizeEmail (jsTrim e))) = some u)
    (hb : bcryptCompare p u.password = false) :
    login secret ttl db now e p =
      ({ status := 401, success := false, message := some "Invalid email or password" }, db) := by
  unfold login
  simp [hv, hf, hb]

theorem login_eq_success {e p : String} {u : UserDoc} (secret : String) (ttl : Nat)
    (db : DB) (now : Nat) (hv : (loginValidationErrs e p).isEmpty = true)
    (hf : findOneByEmail db (jsToLower (normalizeEmail (jsTrim e))) = some u)
    (hb : bcryptCompare p u.password = true) :
    login secret ttl db now e p =
      ({ status := 200, success := true, message := some "Login successful",
         token := some (generateAuthToken secret now ttl { u with lastLogin := now }),
         user := some (getPublicProfile { u with lastLogin := now }) },
       saveDoc db false 0 { u with lastLogin := now }) := by
  unfold login
  simp [hv, hf]
  simp only [hb, Bool.not_true, Bool.false_eq_true, if_false]

theorem userCreate_ok_inv {db : DB} {now salt : Nat} {n e p : String} {doc : UserDoc}
    {db1 : DB} (h : userCreate db now salt n e p = .ok (doc, db1)) :
    doc = { id := db.nextId, name := jsTrim n, email := jsToLower (jsTrim e),
            password := bcryptHash salt p, createdAt := now, lastLogin := now } ∧
    db1 = { users := db.users ++ [doc], nextId := db.nextId + 1 } := by
  simp only [userCreate] at h
  split at h
  · injection h with h1
    injection h1 with hdoc hdb
    subst hdoc
    subst hdb
    exact ⟨rfl, rfl⟩
  · cases h

/-- C1: a login request whose email matches no stored user, and a login
request whose email matches a stored user but whose password fails hash
verification, both return status 401 with the identical response — in
particular the identical message "Invalid email or password" — so the two
failure causes are indistinguishable from the response. -/
theorem login_failures_indistinguishable
    (secret : String) (ttl : Nat) (db : DB) (now : Nat) (email password : String)
    (hval : (loginValidationErrs email password).isEmpty = true)
    (hfail : Option.all (fun u => !bcryptCompare password u.password)
      (findOneByEmail db (jsToLower (normalizeEmail (jsTrim email)))) = true) :
    login secret ttl db now email password =
      ({ status := 401, success := false, message := some "Invalid email or password" }, db) := by
  cases hf : findOneByEmail db (jsToLower (normalizeEmail (jsTrim email))) with
  | none => exact login_eq_no_user secret ttl db now hval hf
  | some u =>
      rw [hf] at hfail
      refine login_eq_bad_password secret ttl db now hval hf ?_
      simpa using hfail

theorem login_failures_indistinguishable_witness :
    login "sec" 1000 aliceDB 500 "ghost@example.com" "pw123456" =
      ({ status := 401, success := false, message := some "Invalid email or password" }, aliceDB) ∧
    login "sec" 1000 aliceDB 500 "Alice@Example.com" "wrongpassword" =
      ({ status := 401, success := false, message := some "Invalid email or password" }, aliceDB) :=
  ⟨login_failures_indistinguishable "sec" 1000 aliceDB 500 "ghost@example.com" "pw123456"
      (by decide) (by decide),
   login_failures_indistinguishable "sec" 1000 aliceDB 500 "Alice@Example.com" "wrongpassword"
      (by decide) (by decide)⟩

/-- C2: a register request in which password and confirmPassword differ
returns status 400 and leaves the credential store unchanged: no user
record is created. -/
theorem register_mismatch_rejected_no_user
    (secret : String) (ttl : Nat) (db : DB) (now salt : Nat)
    (name email password confirmPassword : String)
    (h : password ≠ confirmPassword) :
    (register secret ttl db now salt name email password confirmPassword).1.status = 400 ∧
    (register secret ttl db now salt name email password confirmPassword).2 = db := by
  cases hv : (registerValidationErrs name email password confirmPassword).isEmpty with
  | false =>
      rw [register_eq_validation secret ttl db now salt hv]
      exact ⟨rfl, rfl⟩
  | true =>
      rw [register_eq_mismatch secret ttl db now salt hv h]
      exact ⟨rfl, rfl⟩

theorem register_mismatch_rejected_no_user_witness :
    ("secret1" : String) ≠ "secret2" ∧
    (register "sec" 1000 aliceDB 300 7 "Bob Jones" "bob@example.com" "secret1" "secret2").1.status
      = 400 ∧
    (register "sec" 1000 aliceDB 300 7 "Bob Jones" "bob@example.com" "secret1" "secret2").2
      = aliceDB :=
  ⟨by decide,
   (register_mismatch_rejected_no_user "sec" 1000 aliceDB 300 7 "Bob Jones" "bob@example.com"
     "secret1" "secret2" (by decide)).1,
   (register_mismatch_rejected_no_user "sec" 1000 aliceDB 300 7 "Bob Jones" "bob@example.com"
     "secret1" "secret2" (by decide)).2⟩

/-- C6 (counterexample): the logout cookie is not overwritten with an
empty value — the code writes the sentinel string `'none'` with an expiry
10 seconds (10000 ms) in the future, not an immediately-expiring empty
value. -/
theorem logout_cookie_value_not_empty :
    (logout aliceDB 0).1.cookie.value ≠ "" ∧
    (logout aliceDB 0).1.cookie.value = "none" ∧
    (logout aliceDB 0).1.cookie.expires = 10000 :=
  ⟨by decide, by decide, by decide⟩

/-- C6 (amended): every logout request overwrites the session cookie with
the sentinel value `'none'` expiring 10 seconds later (httpOnly), returns
status 200 with success `true`, and leaves the credential store — every
stored user record — unchanged. -/
theorem logout_clears_cookie_stateless (db : DB) (now : Nat) :
    logout db now =
      ({ status := 200, success := true, message := some "Logout successful",
         cookie := { value := "none", expires := now + 10 * 1000, httpOnly := true } }, db) :=
  rfl

/-- C9: the register input with email "alice@example.info" (top-level
domain longer than 3 characters) passes the route-level validation chain,
but the schema's email regex rejects it at creation, so Register returns
status 500 "Server error during registration" and no user is persisted. -/
theorem register_long_tld_server_error :
    registerValidationErrs "Alice Smith" "alice@example.info" "secret1" "secret1" = [] ∧
    isEmailModel "alice@example.info" = true ∧
    schemaEmailOk "alice@example.info" = false ∧
    (register "sec" 1000 emptyDB 100 7 "Alice Smith" "alice@example.info" "secret1"
      "secret1").1.status = 500 ∧
    (register "sec" 1000 emptyDB 100 7 "Alice Smith" "alice@example.info" "secret1"
      "secret1").1.message = some "Server error during registration" ∧
    (register "sec" 1000 emptyDB 100 7 "Alice Smith" "alice@example.info" "secret1"
      "secret1").2 = emptyDB :=
  ⟨by decide, by decide, by decide, by decide, by decide, by decide⟩

/-- C10: whenever Register succeeds (status 201), the created user record
has its lastLogin initialized to the creation time — equal to createdAt,
never null or absent — and the public profile returned for the fresh user
carries that lastLogin value. -/
theorem register_success_initializes_lastLogin
    (secret : String) (ttl : Nat) (db : DB) (now salt : Nat) (n e p c : String)
    (h : (register secret ttl db now salt n e p c).1.status = 201) :
    ∃ doc : UserDoc,
      (register secret ttl db now salt n e p c).2.users = db.users ++ [doc] ∧
      doc.lastLogin = now ∧
      doc.createdAt = now ∧
      (register secret ttl db now salt n e p c).1.user = some (getPublicProfile doc) ∧
      ("lastLogin", JVal.num now) ∈ getPublicProfile doc := by
  cases hv : (registerValidationErrs n e p c).isEmpty with
  | false =>
      rw [register_eq_validation secret ttl db now salt hv] at h
      simp at h
  | true =>
      by_cases hpc : p = c
      · cases hf : findOneByEmail db (jsToLower (normalizeEmail (jsTrim e))) with
        | some u =>
            rw [register_eq_conflict secret ttl db now salt hv hpc hf] at h
            simp at h
        | none =>
            cases hc : userCreate db now salt (jsTrim n) (jsToLower (normalizeEmail (jsTrim e))) p with
            | error m =>
                rw [register_eq_create_error secret ttl db now salt hv hpc hf hc] at h
                simp at h
            | ok pr =>
                obtain ⟨doc, db1⟩ := pr
                obtain ⟨hdoc, hdb1⟩ := userCreate_ok_inv hc
                refine ⟨doc, ?_, ?_, ?_, ?_, ?_⟩
                · rw [register_eq_created secret ttl db now salt hv hpc hf hc, hdb1]
                · rw [hdoc]
                · rw [hdoc]
                · rw [register_eq_created secret ttl db now salt hv hpc hf hc]
                · rw [hdoc]
                  simp [getPublicProfile]
      · rw [register_eq_mismatch secret ttl db now salt hv hpc] at h
        simp at h

theorem register_success_initializes_lastLogin_witness :
    ∃ doc : UserDoc,
      (register "sec" 1000 emptyDB 100 7 "Alice Smith" "Alice@Example.com" "secret1"
        "secret1").2.users = emptyDB.users ++ [doc] ∧
      doc.lastLogin = 100 ∧
      doc.createdAt = 100 ∧
      (register "sec" 1000 emptyDB 100 7 "Alice Smith" "Alice@Example.com" "secret1"
        "secret1").1.user = some (getPublicProfile doc) ∧
      ("lastLogin", JVal.num 100) ∈ getPublicProfile doc :=
  register_success_initializes_lastLogin "sec" 1000 emptyDB 100 7 "Alice Smith"
    "Alice@Example.com" "secret1" "secret1" (by decide)

theorem register_user_shape (secret : String) (ttl : Nat) (db : DB) (now salt : Nat)
    (n e p c : String) (prof : List (String × JVal))
    (h : (register secret ttl db now salt n e p c).1.user = some prof) :
    ∃ d : UserDoc, prof = getPublicProfile d := by
  cases hv : (registerValidationErrs n e p c).isEmpty with
  | false =>
      rw [register_eq_validation secret ttl db now salt hv] at h
      simp at h
  | true =>
      by_cases hpc : p = c
      · cases hf : findOneByEmail db (jsToLower (normalizeEmail (jsTrim e))) with
        | some u =>
            rw [register_eq_conflict secret ttl db now salt hv hpc hf] at h
            simp at h
        | none =>
            cases hc : userCreate db now salt (jsTrim n) (jsToLower (normalizeEmail (jsTrim e))) p with
            | error m =>
                rw [register_eq_create_error secret ttl db now salt hv hpc hf hc] at h
                simp at h
            | ok pr =>
                obtain ⟨doc, db1⟩ := pr
                rw [register_eq_created secret ttl db now salt hv hpc hf hc] at h
                simp at h
                exact ⟨doc, h.symm⟩
      · rw [register_eq_mismatch secret ttl db now salt hv hpc] at h
        simp at h

theorem login_user_shape (secret : String) (ttl : Nat) (db : DB) (now : Nat)
    (e p : String) (prof : List (String × JVal))
    (h : (login secret ttl db now e p).1.user = some prof) :
    ∃ d : UserDoc, prof = getPublicProfile d := by
  cases hv : (loginValidationErrs e p).isEmpty with
  | false =>
      rw [login_eq_validation secret ttl db now hv] at h
      simp at h
  | true =>
      cases hf : findOneByEmail db (jsToLower (normalizeEmail (jsTrim e))) with
      | none =>
          rw [login_eq_no_user secret ttl db now hv hf] at h
          simp at h
      | some u =>
          cases hb : bcryptCompare p u.password with
          | false =>
              rw [login_eq_bad_password secret ttl db now hv hf hb] at h
              simp at h
          | true =>
              rw [login_eq_success secret ttl db now hv hf hb] at h
              simp at h
              exact ⟨{ u with lastLogin := now }, h.symm⟩

theorem getProfile_user_shape (db : DB) (i : Nat) (prof : List (String × JVal))
    (h : (getProfile db i).user = some prof) :
    ∃ d : UserDoc, prof = getPublicProfile d := by
  unfold getProfile at h
  split at h
  · simp at h
  · rename_i u hu
    simp at h
    exact ⟨u, h.symm⟩

/-- C4: the public profile returned by Register, Login and GetProfile
consists exactly of the fields id, name, email, registeredAt and
lastLogin; the password hash is never present in any of these responses,
and the projection does not depend on the stored password at all. -/
theorem public_profile_exact_fields
    (secret : String) (ttl : Nat) (db : DB) (now salt : Nat)
    (n e p c : String) (userId : Nat) (u : UserDoc) (hstr : String) :
    (getPublicProfile u).map Prod.fst = ["id", "name", "email", "registeredAt", "lastLogin"] ∧
    getPublicProfile { u with password := hstr } = getPublicProfile u ∧
    ∀ prof,
      ((register secret ttl db now salt n e p c).1.user = some prof ∨
       (login secret ttl db now e p).1.user = some prof ∨
       (getProfile db userId).user = some prof) →
      prof.map Prod.fst = ["id", "name", "email", "registeredAt", "lastLogin"] ∧
      "password" ∉ prof.map Prod.fst := by
  refine ⟨rfl, rfl, ?_⟩
  intro prof hp
  have hshape : ∃ d : UserDoc, prof = getPublicProfile d := by
    rcases hp with hp | hp | hp
    · exact register_user_shape secret ttl db now salt n e p c prof hp
    · exact login_user_shape secret ttl db now e p prof hp
    · exact getProfile_user_shape db userId prof hp
  obtain ⟨d, rfl⟩ := hshape
  refine ⟨rfl, ?_⟩
  rw [show (getPublicProfile d).map Prod.fst
      = ["id", "name", "email", "registeredAt", "lastLogin"] from rfl]
  decide

theorem public_profile_exact_fields_witness :
    (getPublicProfile aliceUser).map Prod.fst
      = ["id", "name", "email", "registeredAt", "lastLogin"] ∧
    "password" ∉ (getPublicProfile aliceUser).map Prod.fst :=
  ⟨(public_profile_exact_fields "sec" 1000 aliceDB 100 7 "n" "e" "p" "c" 1 aliceUser "h").1,
   ((public_profile_exact_fields "sec" 1000 aliceDB 100 7 "n" "e" "p" "c" 1 aliceUser "h").2.2
      (getPublicProfile aliceUser) (Or.inr (Or.inr (by decide)))).2⟩

theorem idsDisjoint_unique {l : List UserDoc} (hd : idsDisjoint l = true) :
    ∀ u ∈ l, ∀ v ∈ l, u.id = v.id → u = v := by
  induction l with
  | nil =>
      intro u hu
      cases hu
  | cons a t ih =>
      simp only [idsDisjoint, Bool.and_eq_true, List.all_eq_true] at hd
      obtain ⟨ha, ht⟩ := hd
      intro u hu v hv hid
      rcases List.mem_cons.mp hu with hua | hut
      · rcases List.mem_cons.mp hv with hva | hvt
        · rw [hua, hva]
        · exfalso
          have hne : a.id ≠ v.id := by simpa [bne_iff_ne] using ha v hvt
          apply hne
          rw [← hua]
          exact hid
      · rcases List.mem_cons.mp hv with hva | hvt
        · exfalso
          have hne : a.id ≠ u.id := by simpa [bne_iff_ne] using ha u hut
          apply hne
          rw [← hva]
          exact hid.symm
        · exact ih ht u hut v hvt hid

/-- C7: a successful Login changes only the lastLogin field of the stored
user record — id, name, email, password hash and createdAt are unchanged,
and no other record is touched; moreover the save performed during login
passes `passwordModified = false`, under which `saveDoc` (the pre-save
hook) performs no re-hash at all. -/
theorem login_success_changes_only_lastLogin
    (secret : String) (ttl : Nat) (db : DB) (now : Nat) (e p : String)
    (hids : storedIdsUnique db = true)
    (h : (login secret ttl db now e p).1.status = 200) :
    (∀ (d : DB) (w : UserDoc) (s : Nat),
        saveDoc d false s w
          = { d with users := d.users.map (fun v => if v.id == w.id then w else v) }) ∧
    ∃ u : UserDoc, u ∈ db.users ∧
      findOneByEmail db (jsToLower (normalizeEmail (jsTrim e))) = some u ∧
      (login secret ttl db now e p).2.nextId = db.nextId ∧
      (login secret ttl db now e p).2.users =
        db.users.map (fun v => if v.id == u.id then { v with lastLogin := now } else v) ∧
      ∀ v ∈ (login secret ttl db now e p).2.users, ∃ w ∈ db.users,
        v.id = w.id ∧ v.name = w.name ∧ v.email = w.email ∧
        v.password = w.password ∧ v.createdAt = w.createdAt := by
  refine ⟨fun d w s => rfl, ?_⟩
  cases hv : (loginValidationErrs e p).isEmpty with
  | false =>
      rw [login_eq_validation secret ttl db now hv] at h
      simp at h
  | true =>
      cases hf : findOneByEmail db (jsToLower (normalizeEmail (jsTrim e))) with
      | none =>
          rw [login_eq_no_user secret ttl db now hv hf] at h
          simp at h
      | some u =>
          cases hb : bcryptCompare p u.password with
          | false =>
              rw [login_eq_bad_password secret ttl db now hv hf hb] at h
              simp at h
          | true =>
              have hmem : u ∈ db.users := List.mem_of_find?_eq_some hf
              have hlogin := login_eq_success secret ttl db now hv hf hb
              have husers : (login secret ttl db now e p).2.users =
                  db.users.map
                    (fun v => if v.id == u.id then { u with lastLogin := now } else v) := by
                rw [hlogin]
                show (saveDoc db false 0 { u with lastLogin := now }).users = _
                simp only [saveDoc, Bool.false_eq_true, if_false]
              refine ⟨u, hmem, rfl, ?_, ?_, ?_⟩
              · rw [hlogin]
                rfl
              · rw [husers]
                apply List.map_congr_left
                intro v hvmem
                by_cases hvid : v.id = u.id
                · have hvu : v = u := idsDisjoint_unique hids v hvmem u hmem hvid
                  subst hvu
                  rfl
                · simp [beq_iff_eq, hvid]
              · rw [husers]
                intro v hvmem
                obtain ⟨w, hw, hwv⟩ := List.mem_map.mp hvmem
                by_cases hwid : w.id = u.id
                · have hwu : w = u := idsDisjoint_unique hids w hw u hmem hwid
                  subst hwu
                  rw [if_pos (by simp)] at hwv
                  exact ⟨w, hw, by rw [← hwv]; exact ⟨rfl, rfl, rfl, rfl, rfl⟩⟩
                · rw [if_neg (by simp [beq_iff_eq, hwid])] at hwv
                  exact ⟨w, hw, by rw [← hwv]; exact ⟨rfl, rfl, rfl, rfl, rfl⟩⟩

theorem login_success_changes_only_lastLogin_witness :
    (∀ (d : DB) (w : UserDoc) (s : Nat),
        saveDoc d false s w
          = { d with users := d.users.map (fun v => if v.id == w.id then w else v) }) ∧
    ∃ u : UserDoc, u ∈ aliceDB.users ∧
      findOneByEmail aliceDB (jsToLower (normalizeEmail (jsTrim "alice@example.com"))) = some u ∧
      (login "sec" 1000 aliceDB 200 "alice@example.com" "secret1").2.nextId = aliceDB.nextId ∧
      (login "sec" 1000 aliceDB 200 "alice@example.com" "secret1").2.users =
        aliceDB.users.map (fun v => if v.id == u.id then { v with lastLogin := 200 } else v) ∧
      ∀ v ∈ (login "sec" 1000 aliceDB 200 "alice@example.com" "secret1").2.users,
        ∃ w ∈ aliceDB.users,
          v.id = w.id ∧ v.name = w.name ∧ v.email = w.email ∧
          v.password = w.password ∧ v.createdAt = w.createdAt :=
  login_success_changes_only_lastLogin "sec" 1000 aliceDB 200 "alice@example.com" "secret1"
    (by decide) (by decide)

theorem emailsDisjoint_append_singleton {l : List UserDoc} {d : UserDoc}
    (hl : emailsDisjoint l = true) (hd : ∀ x ∈ l, x.email ≠ d.email) :
    emailsDisjoint (l ++ [d]) = true := by
  induction l with
  | nil => simp [emailsDisjoint]
  | cons a t ih =>
      simp only [emailsDisjoint, Bool.and_eq_true, List.all_eq_true] at hl
      obtain ⟨ha, ht⟩ := hl
      simp only [List.cons_append, emailsDisjoint, Bool.and_eq_true, List.all_eq_true]
      refine ⟨?_, ih ht (fun x hx => hd x (List.mem_cons_of_mem a hx))⟩
      intro x hx
      rcases List.mem_append.mp hx with hxt | hxd
      · exact ha x hxt
      · have hxd2 : x = d := by simpa using hxd
        rw [hxd2]
        simpa [bne_iff_ne] using hd a (List.mem_cons_self a t)

/-- C3 (counterexample): on a duplicate-email register request the code
does return 400, but the message is the longer string "Email already
registered. Please use a different email or login.", not "Email already
registered"; and a duplicate-email request that fails field validation is
answered with "Validation failed" instead. -/
theorem register_duplicate_email_message_counterexample :
    (register "sec" 1000 aliceDB 200 8 "Another Name" "ALICE@example.com" "secret9"
      "secret9").1.status = 400 ∧
    (register "sec" 1000 aliceDB 200 8 "Another Name" "ALICE@example.com" "secret9"
      "secret9").1.message ≠ some "Email already registered" ∧
    (register "sec" 1000 aliceDB 200 8 "Another Name" "ALICE@example.com" "secret9"
      "secret9").1.message
      = some "Email already registered. Please use a different email or login." ∧
    (register "sec" 1000 aliceDB 200 8 "" "alice@example.com" "secret9" "secret9").1.message
      = some "Validation failed" :=
  ⟨by decide, by decide, by decide, by decide⟩

/-- C3 (amended): a register request whose email, compared
case-insensitively after trimming, equals the email of an existing user in
a canonically-stored database returns status 400 with the store unchanged;
when the request passes field validation and its passwords match, the
message is "Email already registered. Please use a different email or
login."; and every Register call preserves pairwise distinctness of the
stored emails. -/
theorem register_duplicate_email_rejected
    (secret : String) (ttl : Nat) (db : DB) (now salt : Nat) (n e p c : String)
    (hcan : storedEmailsCanonical db = true)
    (hw : ∃ w ∈ db.users, jsToLower (jsTrim e) = jsToLower w.email) :
    ((register secret ttl db now salt n e p c).1.status = 400 ∧
     (register secret ttl db now salt n e p c).2 = db) ∧
    ((registerValidationErrs n e p c).isEmpty = true → p = c →
      (register secret ttl db now salt n e p c).1.message =
        some "Email already registered. Please use a different email or login.") ∧
    ∀ (db2 : DB), storedEmailsUnique db2 = true →
      storedEmailsUnique (register secret ttl db2 now salt n e p c).2 = true := by
  have hkey : jsToLower (normalizeEmail (jsTrim e)) = jsToLower (jsTrim e) := by
    simp only [normalizeEmail]
    exact jsToLower_idem (jsTrim e)
  obtain ⟨w, hwmem, hwe⟩ := hw
  have hwcan : w.email = jsToLower (jsTrim w.email) := by
    unfold storedEmailsCanonical at hcan
    have := List.all_eq_true.mp hcan w hwmem
    simpa [beq_iff_eq] using this
  have hlw : jsToLower w.email = w.email := by
    conv_lhs => rw [hwcan]
    rw [jsToLower_idem]
    exact hwcan.symm
  have hweq : w.email = jsToLower (normalizeEmail (jsTrim e)) := by
    rw [hkey, hwe, hlw]
  have hfind : ∃ u, findOneByEmail db (jsToLower (normalizeEmail (jsTrim e))) = some u := by
    have hsome : (findOneByEmail db (jsToLower (normalizeEmail (jsTrim e)))).isSome = true := by
      unfold findOneByEmail
      rw [List.find?_isSome]
      exact ⟨w, hwmem, by simp [beq_iff_eq, hweq]⟩
    exact Option.isSome_iff_exists.mp hsome
  refine ⟨?_, ?_, ?_⟩
  · cases hv : (registerValidationErrs n e p c).isEmpty with
    | false =>
        rw [register_eq_validation secret ttl db now salt hv]
        exact ⟨rfl, rfl⟩
    | true =>
        by_cases hpc : p = c
        · obtain ⟨u, hu⟩ := hfind
          rw [register_eq_conflict secret ttl db now salt hv hpc hu]
          exact ⟨rfl, rfl⟩
        · rw [register_eq_mismatch secret ttl db now salt hv hpc]
          exact ⟨rfl, rfl⟩
  · intro hv hpc
    obtain ⟨u, hu⟩ := hfind
    rw [register_eq_conflict secret ttl db now salt hv hpc hu]
  · intro db2 huniq
    cases hv : (registerValidationErrs n e p c).isEmpty with
    | false =>
        rw [register_eq_validation secret ttl db2 now salt hv]
        exact huniq
    | true =>
        by_cases hpc : p = c
        · cases hf2 : findOneByEmail db2 (jsToLower (normalizeEmail (jsTrim e))) with
          | some u =>
              rw [register_eq_conflict secret ttl db2 now salt hv hpc hf2]
              exact huniq
          | none =>
              cases hc : userCreate db2 now salt (jsTrim n)
                  (jsToLower (normalizeEmail (jsTrim e))) p with
              | error m =>
                  rw [register_eq_create_error secret ttl db2 now salt hv hpc hf2 hc]
                  exact huniq
              | ok pr =>
                  obtain ⟨doc, db1⟩ := pr
                  obtain ⟨hdoc, hdb1⟩ := userCreate_ok_inv hc
                  rw [register_eq_created secret ttl db2 now salt hv hpc hf2 hc]
                  show storedEmailsUnique db1 = true
                  rw [hdb1]
                  unfold storedEmailsUnique
                  apply emailsDisjoint_append_singleton huniq
                  intro x hx
                  have hdoce : doc.email = jsToLower (normalizeEmail (jsTrim e)) := by
                    rw [hdoc]
                    show jsToLower (jsTrim (jsToLower (normalizeEmail (jsTrim e)))) = _
                    simp only [normalizeEmail]
                    exact canonEmail_stable e
                  rw [hdoce]
                  unfold findOneByEmail at hf2
                  have hne := List.find?_eq_none.mp hf2 x hx
                  simpa [beq_iff_eq] using hne
        · rw [register_eq_mismatch secret ttl db2 now salt hv hpc]
          exact huniq

theorem register_duplicate_email_rejected_witness :
    ((register "sec" 1000 aliceDB 200 8 "Another Name" "ALICE@example.com" "secret9"
        "secret9").1.status = 400 ∧
     (register "sec" 1000 aliceDB 200 8 "Another Name" "ALICE@example.com" "secret9"
        "secret9").2 = aliceDB) ∧
    ((registerValidationErrs "Another Name" "ALICE@example.com" "secret9" "secret9").isEmpty
        = true → "secret9" = "secret9" →
      (register "sec" 1000 aliceDB 200 8 "Another Name" "ALICE@example.com" "secret9"
        "secret9").1.message =
        some "Email already registered. Please use a different email or login.") ∧
    ∀ (db2 : DB), storedEmailsUnique db2 = true →
      storedEmailsUnique
        (register "sec" 1000 db2 200 8 "Another Name" "ALICE@example.com" "secret9"
          "secret9").2 = true :=
  register_duplicate_email_rejected "sec" 1000 aliceDB 200 8 "Another Name"
    "ALICE@example.com" "secret9" "secret9" (by decide)
    ⟨aliceUser, by decide, by decide⟩

theorem canonical_form (s : String) :
    jsToLower (jsTrim (jsToLower (jsTrim s))) = jsToLower (jsTrim s) := by
  rw [jsTrim_jsToLower, jsTrim_idem, jsToLower_idem]

/-- C5: registering Alice Smith with email "Alice@Example.com" and
password "secret1" succeeds with 201 and stores the email lowercased as
"alice@example.com"; a subsequent login as "ALICE@example.com" succeeds
with 200 and sets lastLogin to a timestamp at least createdAt.  In
general, both Register and Login keep every stored email lowercased and
trimmed, and Login treats emails that agree after trimming and lowercasing
identically. -/
theorem email_canonicalization_scenario :
    (register "sec" 1000 emptyDB 100 7 "Alice Smith" "Alice@Example.com" "secret1"
      "secret1").1.status = 201 ∧
    (register "sec" 1000 emptyDB 100 7 "Alice Smith" "Alice@Example.com" "secret1"
      "secret1").2.users.map UserDoc.email = ["alice@example.com"] ∧
    (login "sec" 1000 (register "sec" 1000 emptyDB 100 7 "Alice Smith" "Alice@Example.com"
      "secret1" "secret1").2 200 "ALICE@example.com" "secret1").1.status = 200 ∧
    (login "sec" 1000 (register "sec" 1000 emptyDB 100 7 "Alice Smith" "Alice@Example.com"
      "secret1" "secret1").2 200 "ALICE@example.com" "secret1").2.users.all
      (fun u => u.createdAt ≤ u.lastLogin) = true ∧
    (login "sec" 1000 (register "sec" 1000 emptyDB 100 7 "Alice Smith" "Alice@Example.com"
      "secret1" "secret1").2 200 "ALICE@example.com" "secret1").2.users.map
      UserDoc.lastLogin = [200] ∧
    (login "sec" 1000 (register "sec" 1000 emptyDB 100 7 "Alice Smith" "Alice@Example.com"
      "secret1" "secret1").2 200 "ALICE@example.com" "secret1").2.users.map
      UserDoc.createdAt = [100] ∧
    (∀ (secret : String) (ttl : Nat) (db : DB) (now salt : Nat) (n e p c : String),
      storedEmailsCanonical db = true →
      storedEmailsCanonical (register secret ttl db now salt n e p c).2 = true) ∧
    (∀ (secret : String) (ttl : Nat) (db : DB) (now : Nat) (e p : String),
      storedEmailsCanonical db = true →
      storedEmailsCanonical (login secret ttl db now e p).2 = true) ∧
    (∀ (secret : String) (ttl : Nat) (db : DB) (now : Nat) (e1 e2 p : String),
      (loginValidationErrs e1 p).isEmpty = true →
      (loginValidationErrs e2 p).isEmpty = true →
      jsToLower (jsTrim e1) = jsToLower (jsTrim e2) →
      login secret ttl db now e1 p = login secret ttl db now e2 p) := by
  refine ⟨by decide, by decide, by decide, by decide, by decide, by decide, ?_, ?_, ?_⟩
  · intro secret ttl db now salt n e p c hcan
    cases hv : (registerValidationErrs n e p c).isEmpty with
    | false =>
        rw [register_eq_validation secret ttl db now salt hv]
        exact hcan
    | true =>
        by_cases hpc : p = c
        · cases hf : findOneByEmail db (jsToLower (normalizeEmail (jsTrim e))) with
          | some u =>
              rw [register_eq_conflict secret ttl db now salt hv hpc hf]
              exact hcan
          | none =>
              cases hc : userCreate db now salt (jsTrim n)
                  (jsToLower (normalizeEmail (jsTrim e))) p with
              | error m =>
                  rw [register_eq_create_error secret ttl db now salt hv hpc hf hc]
                  exact hcan
              | ok pr =>
                  obtain ⟨doc, db1⟩ := pr
                  obtain ⟨hdoc, hdb1⟩ := userCreate_ok_inv hc
                  rw [register_eq_created secret ttl db now salt hv hpc hf hc]
                  show storedEmailsCanonical db1 = true
                  rw [hdb1]
                  unfold storedEmailsCanonical at hcan ⊢
                  rw [List.all_append, hcan, Bool.true_and]
                  have hdoce : doc.email = jsToLower (jsTrim (jsToLower (normalizeEmail (jsTrim e)))) := by
                    rw [hdoc]
                  simp only [List.all_cons, List.all_nil, Bool.and_true]
                  rw [hdoce, canonical_form]
                  simp
        · rw [register_eq_mismatch secret ttl db now salt hv hpc]
          exact hcan
  · intro secret ttl db now e p hcan
    cases hv : (loginValidationErrs e p).isEmpty with
    | false =>
        rw [login_eq_validation secret ttl db now hv]
        exact hcan
    | true =>
        cases hf : findOneByEmail db (jsToLower (normalizeEmail (jsTrim e))) with
        | none =>
            rw [login_eq_no_user secret ttl db now hv hf]
            exact hcan
        | some u =>
            cases hb : bcryptCompare p u.password with
            | false =>
                rw [login_eq_bad_password secret ttl db now hv hf hb]
                exact hcan
            | true =>
                have hmem : u ∈ db.users := List.mem_of_find?_eq_some hf
                rw [login_eq_success secret ttl db now hv hf hb]
                show storedEmailsCanonical (saveDoc db false 0 { u with lastLogin := now }) = true
                unfold storedEmailsCanonical at hcan
                unfold storedEmailsCanonical saveDoc
                simp only [Bool.false_eq_true, if_false]
                rw [List.all_eq_true]
                intro y hy
                obtain ⟨x, hx, hxy⟩ := List.mem_map.mp hy
                by_cases hxid : (x.id == ({ u with lastLogin := now } : UserDoc).id) = true
                · rw [if_pos hxid] at hxy
                  rw [← hxy]
                  exact List.all_eq_true.mp hcan u hmem
                · rw [if_neg (by simpa using hxid)] at hxy
                  rw [← hxy]
                  exact List.all_eq_true.mp hcan x hx
  · intro secret ttl db now e1 e2 p hv1 hv2 hlow
    have hkeys : jsToLower (normalizeEmail (jsTrim e1)) = jsToLower (normalizeEmail (jsTrim e2)) := by
      simp only [normalizeEmail]
      rw [jsToLower_idem (jsTrim e1), jsToLower_idem (jsTrim e2), hlow]
    cases hf : findOneByEmail db (jsToLower (normalizeEmail (jsTrim e1))) with
    | none =>
        have hf2 : findOneByEmail db (jsToLower (normalizeEmail (jsTrim e2))) = none := by
          rw [← hkeys]
          exact hf
        rw [login_eq_no_user secret ttl db now hv1 hf, login_eq_no_user secret ttl db now hv2 hf2]
    | some u =>
        have hf2 : findOneByEmail db (jsToLower (normalizeEmail (jsTrim e2))) = some u := by
          rw [← hkeys]
          exact hf
        cases hb : bcryptCompare p u.password with
        | false =>
            rw [login_eq_bad_password secret ttl db now hv1 hf hb,
                login_eq_bad_password secret ttl db now hv2 hf2 hb]
        | true =>
            rw [login_eq_success secret ttl db now hv1 hf hb,
                login_eq_success secret ttl db now hv2 hf2 hb]

theorem email_canonicalization_scenario_witness :
    login "sec" 1000 aliceDB 300 "ALICE@EXAMPLE.COM" "secret1" =
      login "sec" 1000 aliceDB 300 "alice@example.com" "secret1" :=
  email_canonicalization_scenario.2.2.2.2.2.2.2.2 "sec" 1000 aliceDB 300 "ALICE@EXAMPLE.COM"
    "alice@example.com" "secret1" (by decide) (by decide) (by decide)

/-- C8: the session middleware extracts the token from the cookie first
and falls back to the `Authorization: Bearer` header only when the cookie
is absent; with no token it rejects 401 "Not authorized… please login.";
a malformed token, or one with an invalid signature that is not expired,
is rejected 401 "Invalid token."; a token past its expiry is rejected 401
"Token expired." regardless of signature validity; and the same token
presented through either carrier produces the same result. -/
theorem protect_middleware_contract (secret : String) (now : Nat) (db : DB) :
    (∀ (t : RawToken) (h : Option HeaderVal),
      extractToken { cookieToken := some t, authHeader := h } = some t) ∧
    (∀ t : RawToken,
      extractToken { cookieToken := none, authHeader := some (.bearer t) } = some t) ∧
    (∀ req : Request, extractToken req = none →
      protect secret now db req = .error (401, "Not authorized… please login.")) ∧
    (∀ (req : Request) (s : String), extractToken req = some (.malformed s) →
      protect secret now db req = .error (401, "Invalid token.")) ∧
    (∀ (req : Request) (tok : Token), extractToken req = some (.parsed tok) →
      now < tok.payload.exp → tok.sig ≠ jwtSignature secret tok.payload →
      protect secret now db req = .error (401, "Invalid token.")) ∧
    (∀ (req : Request) (tok : Token), extractToken req = some (.parsed tok) →
      tok.payload.exp ≤ now →
      protect secret now db req = .error (401, "Token expired.")) ∧
    (∀ t : RawToken,
      protect secret now db { cookieToken := some t, authHeader := none } =
        protect secret now db { cookieToken := none, authHeader := some (.bearer t) }) := by
  refine ⟨fun t h => rfl, fun t => rfl, ?_, ?_, ?_, ?_, ?_⟩
  · intro req hx
    unfold protect
    rw [hx]
  · intro req s hx
    unfold protect
    rw [hx]
    rfl
  · intro req tok hx hnexp hsig
    unfold protect
    rw [hx]
    unfold jwtVerify
    dsimp only
    rw [if_neg (by omega), if_pos hsig]
  · intro req tok hx hexp
    unfold protect
    rw [hx]
    unfold jwtVerify
    dsimp only
    rw [if_pos hexp]
  · intro t
    rfl

theorem protect_middleware_contract_witness :
    protect "sec" 100 aliceDB
      (Request.mk
        (some (RawToken.parsed
          (Token.mk (TokenPayload.mk 1 "alice@example.com" 0 50) "forged"))) none) =
      .error (401, "Token expired.") :=
  (protect_middleware_contract "sec" 100 aliceDB).2.2.2.2.2.1
    (Request.mk
      (some (RawToken.parsed
        (Token.mk (TokenPayload.mk 1 "alice@example.com" 0 50) "forged"))) none)
    (Token.mk (TokenPayload.mk 1 "alice@example.com" 0 50) "forged")
    (by rfl) (by decide)

end SecureSphere
